import Mathlib

/-!
Verification of the AI-Document-Helper RAG backend
(`src/backend/document_processor.py` and `src/backend/rag_engine.py`)
against its natural-language specification.

The Python code is shallowly embedded: pure computations become Lean
functions, Python `int` becomes `Int` (with `Nat` where the value is an
index/count that stays non-negative), Python list slicing becomes an
explicit `pySlice`, the `while` loop of `_create_chunks` becomes a
fuel-indexed recursion returning `Option` (`none` = the loop did not
terminate within the given fuel), and the external collaborators
(Qdrant search, Ollama generation, the embedding model) become oracle
parameters / outcome values fed to the embedded functions.
Floating-point scores are modelled as rationals.
-/

namespace AIDocHelper

/-- Metadata recorded for each chunk by `DocumentProcessor._create_chunks`:
`{"chunk_id": chunk_id, "start_word": start, "end_word": end}`.
`start_word`/`end_word` are Python ints, hence `Int` here. -/
structure ChunkMetadata where
  chunk_id : Nat
  start_word : Int
  end_word : Int
deriving Repr, DecidableEq

/-- A chunk dict `{"text": chunk_text, "metadata": {...}}` as produced by
`DocumentProcessor._create_chunks`. -/
structure Chunk where
  text : String
  metadata : ChunkMetadata
deriving Repr, DecidableEq

/-- Clamp one endpoint of a Python slice `l[start:stop]` to `[0, n]`:
a negative index counts from the end, and out-of-range indices clamp. -/
def pySliceIndex (n : Int) (i : Int) : Int :=
  if i < 0 then max 0 (n + i) else min i n

/-- Python list slicing `words[start:stop]` (step 1). -/
def pySlice (words : List String) (start stop : Int) : List String :=
  let n : Int := words.length
  let s := pySliceIndex n start
  let e := pySliceIndex n stop
  (words.drop s.toNat).take (e - s).toNat

/-- Helper for `pySplit`: scan the characters, `acc` holding the current
word's characters in reverse; a whitespace character ends the current word
(if any), and maximal non-whitespace runs become the words. -/
def pySplitAux : List Char → List Char → List String
  | [], [] => []
  | [], acc => [String.mk acc.reverse]
  | c :: cs, acc =>
    if c.isWhitespace then
      match acc with
      | [] => pySplitAux cs []
      | _ => String.mk acc.reverse :: pySplitAux cs []
    else
      pySplitAux cs (c :: acc)

/-- Python `text.split()` (no separator argument): split on runs of
whitespace, producing no empty words. -/
def pySplit (text : String) : List String := pySplitAux text.data []

/-- Python `sep.join(ws)`: the words of `ws` concatenated with `sep`
between consecutive words (and nothing around them). -/
def pyJoin (sep : String) : List String → String
  | [] => ""
  | [w] => w
  | w :: ws => w ++ sep ++ pyJoin sep ws

/-- The `DocumentProcessor` object: `__init__` just stores `chunk_size` and
`chunk_overlap` (Python ints), performing no validation. -/
structure DocumentProcessor where
  chunk_size : Int
  chunk_overlap : Int

/-- The `while start < len(words)` loop of `_create_chunks`, with explicit
fuel.  Each iteration emits the chunk `words[start : start+chunk_size]`
joined by single spaces, with metadata `(chunk_id, start, start+chunk_size)`,
then advances `start` by `chunk_size - chunk_overlap`.  `none` means the
fuel ran out before the loop exited (the Python loop would still be
running after that many iterations). -/
def createChunksAux (p : DocumentProcessor) (words : List String) :
    Int → Nat → Nat → Option (List Chunk)
  | _, _, 0 => none
  | start, chunk_id, fuel + 1 =>
    if start < (words.length : Int) then
      let endw := start + p.chunk_size
      let chunkWords := pySlice words start endw
      let chunkText := pyJoin " " chunkWords
      let c : Chunk := ⟨chunkText, ⟨chunk_id, start, endw⟩⟩
      (createChunksAux p words (start + p.chunk_size - p.chunk_overlap)
        (chunk_id + 1) fuel).map (fun rest => c :: rest)
    else
      some []

/-- The body of `_create_chunks` after `words = text.split()`: run the
chunking loop from `start = 0`, `chunk_id = 0`.  The fuel `N + 1` is
enough for the loop to finish whenever the window advance is positive
(at most `N` chunk-emitting iterations happen then, plus the final
test of the loop condition). -/
def createChunksFromWords (p : DocumentProcessor) (words : List String) :
    Option (List Chunk) :=
  createChunksAux p words 0 0 (words.length + 1)

/-- `DocumentProcessor._create_chunks(text)`: split `text` into words and
run the chunking loop. -/
def createChunks (p : DocumentProcessor) (text : String) :
    Option (List Chunk) :=
  createChunksFromWords p (pySplit text)

/-- Ceiling division on naturals: `ceil (a / b)` for `b > 0`. -/
def ceilDiv (a b : Nat) : Nat := (a + b - 1) / b

/-- The chunk that the loop body of `_create_chunks` emits when the window
starts at word `s`: the words `words[s : s+cs]` joined by single spaces,
with metadata `(cid, s, s + cs)`. -/
def mkChunk (words : List String) (cs s cid : Nat) : Chunk :=
  ⟨pyJoin " " ((words.drop s).take cs), ⟨cid, (s : Int), (s : Int) + (cs : Int)⟩⟩

/-! ### Basic lemmas about the chunking loop -/

lemma pySlice_natCast (words : List String) (s c : Nat) :
    pySlice words (s : Int) ((s : Int) + (c : Int)) = (words.drop s).take c := by
  simp only [pySlice, pySliceIndex]
  rw [if_neg (by omega : ¬ ((s : Int) < 0)),
    if_neg (by omega : ¬ ((s : Int) + (c : Int) < 0))]
  rcases le_or_lt s words.length with h | h
  · have e1 : (min (s : Int) (words.length : Int)).toNat = s := by omega
    have e2 : (min ((s : Int) + (c : Int)) (words.length : Int)
        - min (s : Int) (words.length : Int)).toNat = min c (words.length - s) := by
      omega
    rw [e1, e2]
    refine List.take_eq_take.mpr ?_
    simp only [List.length_drop]
    omega
  · have e1 : (min (s : Int) (words.length : Int)).toNat = words.length := by omega
    have e2 : (min ((s : Int) + (c : Int)) (words.length : Int)
        - min (s : Int) (words.length : Int)).toNat = 0 := by omega
    rw [e1, e2]
    rw [List.drop_length, List.drop_eq_nil_of_le (le_of_lt h)]
    simp

lemma ceilDiv_zero (b : Nat) : ceilDiv 0 b = 0 := by
  unfold ceilDiv
  rcases Nat.eq_zero_or_pos b with hb | hb
  · subst hb; rfl
  · exact Nat.div_eq_of_lt (by omega)

lemma ceilDiv_step (a b : Nat) (hb : 0 < b) (ha : 0 < a) :
    ceilDiv a b = ceilDiv (a - b) b + 1 := by
  unfold ceilDiv
  rcases le_or_lt a b with h | h
  · have h1 : a - b = 0 := by omega
    have h2 : (0 : Nat) + b - 1 = b - 1 := by omega
    have h3 : a + b - 1 = (a - 1) + b := by omega
    rw [h1, h2, h3, Nat.add_div_right _ hb,
      Nat.div_eq_of_lt (by omega), Nat.div_eq_of_lt (by omega)]
  · have h1 : a + b - 1 = (a - b + b - 1) + b := by omega
    rw [h1, Nat.add_div_right _ hb]

/-- Closed form of the `while` loop of `_create_chunks` under valid
parameters (`overlap < chunk_size`): with enough fuel it terminates and
emits, for each `k` below `⌈(N - start) / step⌉` with
`step = chunk_size - overlap`, the window starting at `start + k·step`. -/
lemma createChunksAux_eq (cs ov : Nat) (hov : ov < cs) (words : List String) :
    ∀ fuel start chunk_id : Nat,
      words.length ≤ start + fuel * (cs - ov) →
      createChunksAux ⟨(cs : Int), (ov : Int)⟩ words (start : Int) chunk_id (fuel + 1) =
        some ((List.range (ceilDiv (words.length - start) (cs - ov))).map
          (fun k => mkChunk words cs (start + k * (cs - ov)) (chunk_id + k))) := by
  intro fuel
  induction fuel with
  | zero =>
    intro start chunk_id h
    simp only [Nat.zero_mul, Nat.add_zero] at h
    unfold createChunksAux
    rw [if_neg (by exact_mod_cast not_lt.mpr h)]
    have hz : words.length - start = 0 := by omega
    rw [hz, ceilDiv_zero]
    rfl
  | succ fuel ih =>
    intro start chunk_id h
    by_cases hlt : start < words.length
    · show (if (start : Int) < (words.length : Int) then _ else _) = _
      rw [if_pos (by exact_mod_cast hlt)]
      have hadv : (start : Int) + (cs : Int) - (ov : Int)
          = ((start + (cs - ov) : Nat) : Int) := by push_cast; omega
      rw [Nat.succ_mul] at h
      rw [hadv, ih (start + (cs - ov)) (chunk_id + 1) (by omega)]
      have hcount : ceilDiv (words.length - start) (cs - ov)
          = ceilDiv (words.length - (start + (cs - ov))) (cs - ov) + 1 := by
        have := ceilDiv_step (words.length - start) (cs - ov) (by omega) (by omega)
        rw [this]
        congr 1
        congr 1
        omega
      rw [hcount, List.range_succ_eq_map, List.map_cons, List.map_map,
        Option.map_some']
      congr 1
      congr 1
      · simp [mkChunk, pySlice_natCast]
      · refine List.map_congr_left fun k _ => ?_
        simp only [Function.comp_apply]
        have h1 : start + (cs - ov) + k * (cs - ov) = start + Nat.succ k * (cs - ov) := by
          rw [Nat.succ_mul]; ring
        have h2 : chunk_id + 1 + k = chunk_id + Nat.succ k := by omega
        rw [h1, h2]
    · show (if (start : Int) < (words.length : Int) then _ else _) = _
      rw [if_neg (by exact_mod_cast hlt)]
      have hz : words.length - start = 0 := by omega
      rw [hz, ceilDiv_zero]
      rfl

/-- Closed form of `_create_chunks` on a word list, for valid parameters. -/
lemma createChunksFromWords_eq (cs ov : Nat) (hov : ov < cs) (words : List String) :
    createChunksFromWords ⟨(cs : Int), (ov : Int)⟩ words =
      some ((List.range (ceilDiv words.length (cs - ov))).map
        (fun k => mkChunk words cs (k * (cs - ov)) k)) := by
  have hfuel : words.length ≤ 0 + words.length * (cs - ov) := by
    have := Nat.le_mul_of_pos_right words.length (show 0 < cs - ov by omega)
    omega
  have h := createChunksAux_eq cs ov hov words words.length 0 0 hfuel
  rw [show ((0 : Nat) : Int) = (0 : Int) from rfl] at h
  unfold createChunksFromWords
  rw [h]
  congr 1
  refine List.map_congr_left fun k _ => ?_
  simp

/-- With `chunk_overlap ≥ chunk_size` the advance `chunk_size - chunk_overlap`
is non-positive, so once `start < len(words)` the loop condition stays true
forever: the loop consumes any amount of fuel without exiting (the Python
loop never terminates), and no configuration error is ever raised. -/
lemma createChunksAux_none_of_overlap_ge (cs ov : Int) (hle : cs ≤ ov)
    (words : List String) :
    ∀ (fuel : Nat) (start : Int) (chunk_id : Nat),
      start < (words.length : Int) →
      createChunksAux ⟨cs, ov⟩ words start chunk_id fuel = none := by
  intro fuel
  induction fuel with
  | zero => intro start chunk_id _; rfl
  | succ fuel ih =>
    intro start chunk_id hlt
    show (if start < (words.length : Int) then _ else _) = _
    rw [if_pos hlt, ih (start + cs - ov) (chunk_id + 1) (by omega)]
    rfl


/-! ### Words produced by `pySplit` and the `pyJoin` round trip -/

lemma pySplitAux_nil_cons (a : Char) (as : List Char) :
    pySplitAux [] (a :: as) = [String.mk ((a :: as).reverse)] := rfl

lemma pySplitAux_cons_nonws (c : Char) (cs acc : List Char)
    (hc : ¬ c.isWhitespace) :
    pySplitAux (c :: cs) acc = pySplitAux cs (c :: acc) := by
  cases acc <;> simp [pySplitAux, hc]

lemma pySplitAux_cons_ws_nil (c : Char) (cs : List Char) (hc : c.isWhitespace) :
    pySplitAux (c :: cs) [] = pySplitAux cs [] := by
  simp [pySplitAux, hc]

lemma pySplitAux_cons_ws (c : Char) (cs : List Char) (a : Char) (as : List Char)
    (hc : c.isWhitespace) :
    pySplitAux (c :: cs) (a :: as)
      = String.mk ((a :: as).reverse) :: pySplitAux cs [] := by
  simp [pySplitAux, hc]

lemma mk_ne_empty (a : Char) (as : List Char) : String.mk (a :: as) ≠ "" := by
  intro hcon
  have h := congrArg String.data hcon
  simp at h

lemma data_ne_nil_of_ne_empty (w : String) (h : w ≠ "") : w.data ≠ [] := by
  intro hd
  apply h
  cases w
  simp_all

lemma pySplitAux_mem (l : List Char) :
    ∀ acc, (∀ c ∈ acc, ¬ c.isWhitespace) →
      ∀ w ∈ pySplitAux l acc, w ≠ "" ∧ ∀ c ∈ w.data, ¬ c.isWhitespace := by
  induction l with
  | nil =>
    intro acc hacc w hw
    cases acc with
    | nil => simp [pySplitAux] at hw
    | cons a as =>
      rw [pySplitAux_nil_cons, List.mem_singleton] at hw
      subst hw
      obtain ⟨b, bs, hrev⟩ := List.exists_cons_of_ne_nil
        (show (a :: as).reverse ≠ [] by simp)
      refine ⟨by rw [hrev]; exact mk_ne_empty b bs, ?_⟩
      intro c hc
      have hc' : c ∈ (a :: as).reverse := hc
      exact hacc c (List.mem_reverse.mp hc')
  | cons c cs ih =>
    intro acc hacc w hw
    by_cases hc : c.isWhitespace
    · cases acc with
      | nil =>
        rw [pySplitAux_cons_ws_nil c cs hc] at hw
        exact ih [] (by simp) w hw
      | cons a as =>
        rw [pySplitAux_cons_ws c cs a as hc] at hw
        rcases List.mem_cons.mp hw with h | h
        · subst h
          obtain ⟨b, bs, hrev⟩ := List.exists_cons_of_ne_nil
            (show (a :: as).reverse ≠ [] by simp)
          refine ⟨by rw [hrev]; exact mk_ne_empty b bs, ?_⟩
          intro d hd
          have hd' : d ∈ (a :: as).reverse := hd
          exact hacc d (List.mem_reverse.mp hd')
        · exact ih [] (by simp) w h
    · rw [pySplitAux_cons_nonws c cs acc hc] at hw
      refine ih (c :: acc) ?_ w hw
      intro d hd
      rcases List.mem_cons.mp hd with h | h
      · subst h; exact hc
      · exact hacc d h

/-- Every word `_create_chunks` sees after `text.split()` is non-empty and
contains no whitespace character. -/
lemma pySplit_words (text : String) :
    ∀ w ∈ pySplit text, w ≠ "" ∧ ∀ c ∈ w.data, ¬ c.isWhitespace :=
  pySplitAux_mem text.data [] (by simp)

lemma pySplitAux_append_nonws (wchars : List Char) :
    ∀ (l acc : List Char), (∀ c ∈ wchars, ¬ c.isWhitespace) →
      pySplitAux (wchars ++ l) acc = pySplitAux l (wchars.reverse ++ acc) := by
  induction wchars with
  | nil => intro l acc _; simp
  | cons c cs ih =>
    intro l acc h
    rw [List.cons_append, pySplitAux_cons_nonws c (cs ++ l) acc (h c (by simp)),
      ih l (c :: acc) (fun d hd => h d (by simp [hd]))]
    simp

/-- Joining non-empty whitespace-free words with single spaces and
re-splitting recovers exactly the word list: the text of a chunk
"contains" precisely the words of its window. -/
lemma pySplit_pyJoin (ws : List String)
    (h : ∀ w ∈ ws, w ≠ "" ∧ ∀ c ∈ w.data, ¬ c.isWhitespace) :
    pySplit (pyJoin " " ws) = ws := by
  induction ws with
  | nil => rfl
  | cons w ws ih =>
    obtain ⟨hne, hnws⟩ := h w (by simp)
    cases ws with
    | nil =>
      show pySplitAux (pyJoin " " [w]).data [] = [w]
      have h1 : pySplitAux (w.data ++ []) [] = pySplitAux [] (w.data.reverse ++ []) :=
        pySplitAux_append_nonws w.data [] [] hnws
      rw [List.append_nil] at h1
      rw [show pyJoin " " [w] = w from rfl, h1, List.append_nil]
      obtain ⟨b, bs, hrd⟩ := List.exists_cons_of_ne_nil
        (show w.data.reverse ≠ [] by
          simpa using data_ne_nil_of_ne_empty w hne)
      rw [hrd, pySplitAux_nil_cons, ← hrd, List.reverse_reverse]
    | cons w' ws' =>
      show pySplitAux (pyJoin " " (w :: w' :: ws')).data [] = w :: w' :: ws'
      have hdata : (pyJoin " " (w :: w' :: ws')).data
          = w.data ++ (' ' :: (pyJoin " " (w' :: ws')).data) := by
        rw [show pyJoin " " (w :: w' :: ws')
            = w ++ " " ++ pyJoin " " (w' :: ws') from rfl]
        simp [String.data_append]
      rw [hdata,
        pySplitAux_append_nonws w.data (' ' :: (pyJoin " " (w' :: ws')).data) [] hnws,
        List.append_nil]
      obtain ⟨b, bs, hrd⟩ := List.exists_cons_of_ne_nil
        (show w.data.reverse ≠ [] by
          simpa using data_ne_nil_of_ne_empty w hne)
      rw [hrd, pySplitAux_cons_ws ' ' _ b bs (by decide), ← hrd,
        List.reverse_reverse,
        show pySplitAux (pyJoin " " (w' :: ws')).data [] = w' :: ws' from
          ih (fun x hx => h x (by simp [hx]))]

/-! ### RAG engine (`src/backend/rag_engine.py`)

External collaborators (the Qdrant store, the Ollama generation service,
the sentence-transformer embedding model, `uuid.uuid4()`) appear as oracle
parameters or pre-drawn outcome values; float scores are rationals. -/

/-- One search hit returned by `qdrant_client.search`: its payload fields
and score.  `payload.get("chunk_index", 0)` may be absent, hence `Option`. -/
structure SearchHit where
  payload_text : String
  payload_source : String
  score : ℚ
  payload_chunk_index : Option Nat
deriving Repr, DecidableEq

/-- Outcome of the `try` block of `_retrieve_context`: the embedding and
the search succeed with a ranked hit list, or some exception is raised
inside the block (store unreachable, search failure, ...). -/
inductive SearchOutcome where
  | ok (hits : List SearchHit)
  | exc (msg : String)
deriving Repr, DecidableEq

/-- A context dict built by `RAGEngine._retrieve_context` for one hit. -/
structure RetrievedContext where
  text : String
  source : String
  score : ℚ
  chunk_index : Nat
deriving Repr, DecidableEq

/-- `RAGEngine._retrieve_context`: on success, map each hit to a context
dict preserving rank order; on any exception, log it and return `[]`. -/
def retrieveContext (outcome : SearchOutcome) : List RetrievedContext :=
  match outcome with
  | .ok hits => hits.map (fun r =>
      ⟨r.payload_text, r.payload_source, r.score, r.payload_chunk_index.getD 0⟩)
  | .exc _ => []

/-- Outcome of the `httpx` POST to Ollama inside `_generate_answer`: an
HTTP response carrying a status code and the optional `"response"` field
of its JSON body, a timeout, or any other exception. -/
inductive GenOutcome where
  | httpResponse (status : Nat) (field : Option String)
  | timeoutExc
  | otherExc (msg : String)
deriving Repr, DecidableEq

/-- The context block of the prompt: each context labeled by its source,
joined by blank lines. -/
def contextBlock (contexts : List RetrievedContext) : String :=
  pyJoin "\n\n" (contexts.map
    (fun ctx => "[Source: " ++ ctx.source ++ "]\n" ++ ctx.text))

/-- The grounded instruction prompt `_generate_answer` sends to Ollama. -/
def buildPrompt (query : String) (contexts : List RetrievedContext) : String :=
  "Based on the following context, answer the question. If the answer cannot be found in the context, say so.\n\nContext:\n"
    ++ contextBlock contexts ++ "\n\nQuestion: " ++ query ++ "\n\nAnswer:"

/-- `RAGEngine._generate_answer`: build the grounded prompt, call the
generation service (the oracle `gen`), and map every outcome to an answer
string — a missing `"response"` field, a non-200 status, a timeout and any
other exception each get their fixed fallback; nothing is raised. -/
def generateAnswer (gen : String → GenOutcome) (query : String)
    (contexts : List RetrievedContext) : String :=
  match gen (buildPrompt query contexts) with
  | .httpResponse status field =>
      if status = 200 then
        field.getD "Sorry, I couldn't generate an answer."
      else
        "Sorry, the AI service is currently unavailable."
  | .timeoutExc => "Sorry, the request timed out. Please try again."
  | .otherExc e => "Sorry, an error occurred: " ++ e

/-- A source entry of a query result:
`{source, relevance_score, excerpt}`. -/
structure SourceEntry where
  source : String
  relevance_score : ℚ
  excerpt : String
deriving Repr, DecidableEq

/-- The result dict of `RAGEngine.query`: `{answer, sources}`. -/
structure QueryResult where
  answer : String
  sources : List SourceEntry
deriving Repr, DecidableEq

/-- Round half to even on an integer-plus-remainder split, as Python's
`round` resolves ties. -/
def roundHalfEven (q : ℚ) : ℤ :=
  if q - ⌊q⌋ < 1 / 2 then ⌊q⌋
  else if 1 / 2 < q - ⌊q⌋ then ⌊q⌋ + 1
  else if ⌊q⌋ % 2 = 0 then ⌊q⌋ else ⌊q⌋ + 1

/-- Python `round(x, 3)` on our rational model of float scores: round
`x·1000` to the nearest integer (ties to even) and scale back. -/
def pyRound3 (q : ℚ) : ℚ := (roundHalfEven (q * 1000) : ℚ) / 1000

/-- The source entry `RAGEngine.query` builds for one context:
`{"source": ..., "relevance_score": round(score, 3), "excerpt":
text[:200] + "..." if len(text) > 200 else text}`. -/
def formatSource (ctx : RetrievedContext) : SourceEntry :=
  { source := ctx.source
    relevance_score := pyRound3 ctx.score
    excerpt :=
      if 200 < ctx.text.length then String.mk (ctx.text.data.take 200) ++ "..."
      else ctx.text }

/-- Lines 208–230 of `RAGEngine.query`, after retrieval: the empty-context
branch returns the fixed no-information answer with no sources; otherwise
the answer is generated and each context becomes a source entry, in rank
order. -/
def synthesize (gen : String → GenOutcome) (question : String)
    (contexts : List RetrievedContext) : QueryResult :=
  if contexts = [] then
    { answer := "I couldn't find any relevant information in the documents to answer your question."
      sources := [] }
  else
    { answer := generateAnswer gen question contexts
      sources := contexts.map formatSource }

/-- `RAGEngine.query`: retrieve contexts for the question, then synthesize
the answer and sources.  (The surrounding `try` only logs and re-raises,
so it adds no behavior to the embedded pure pipeline.) -/
def ragQuery (search : SearchOutcome) (gen : String → GenOutcome)
    (question : String) : QueryResult :=
  synthesize gen question (retrieveContext search)

/-- An indexed point as built by `RAGEngine.add_documents`: a fresh UUID,
the embedding of the chunk's text, and the payload
`{"text": ..., "source": ..., "chunk_index": i, "metadata": ...}`. -/
structure IndexedPoint where
  id : String
  vector : List ℚ
  payload_text : String
  payload_source : String
  payload_chunk_index : Nat
  payload_metadata : ChunkMetadata
deriving Repr, DecidableEq

/-- `RAGEngine.add_documents`: for `i, chunk in enumerate(chunks)` build
the point for chunk `i`, appending in loop order; the returned list is
exactly the `points` argument of the single `upsert` call.  `embed` is the
embedding-model oracle, `genId` the stream of `uuid.uuid4()` draws. -/
def addDocuments (embed : String → List ℚ) (genId : Nat → String)
    (chunks : List Chunk) (source : String) : List IndexedPoint :=
  chunks.enum.map (fun ic =>
    { id := genId ic.1
      vector := embed ic.2.text
      payload_text := ic.2.text
      payload_source := source
      payload_chunk_index := ic.1
      payload_metadata := ic.2.metadata })

/-- Outcome of `qdrant_client.get_collection` inside `get_stats`. -/
inductive CollectionInfo where
  | ok (points_count : Nat)
  | exc (msg : String)
deriving Repr, DecidableEq

/-- The stats dict returned by `RAGEngine.get_stats`. -/
structure Stats where
  total_documents : Nat
  vector_dimension : Nat
  collection_name : String
deriving Repr, DecidableEq

/-- `self.embedding_dim = 384` (dimension of `all-MiniLM-L6-v2`). -/
def embeddingDim : Nat := 384

/-- `self.collection_name = "documents"`. -/
def collectionName : String := "documents"

/-- `RAGEngine.get_stats`: report the collection's point count, the fixed
dimension and the collection name; on any failure of the store call,
return the same record with a zero count instead of raising. -/
def getStats (info : CollectionInfo) : Stats :=
  match info with
  | .ok n => ⟨n, embeddingDim, collectionName⟩
  | .exc _ => ⟨0, embeddingDim, collectionName⟩

/-! ### Arithmetic facts about `ceilDiv` -/

lemma le_ceilDiv_mul (a b : Nat) (hb : 0 < b) : a ≤ ceilDiv a b * b := by
  unfold ceilDiv
  have h1 := Nat.div_add_mod (a + b - 1) b
  have h2 := Nat.mod_lt (a + b - 1) hb
  have h3 : (a + b - 1) / b * b = b * ((a + b - 1) / b) := Nat.mul_comm _ _
  omega

lemma mul_lt_of_lt_ceilDiv (a b k : Nat) (hb : 0 < b) (hk : k < ceilDiv a b) :
    k * b < a := by
  by_contra hcon
  push_neg at hcon
  have hle : ceilDiv a b ≤ k := by
    unfold ceilDiv
    calc (a + b - 1) / b ≤ (b - 1 + k * b) / b :=
          Nat.div_le_div_right (by omega)
      _ = (b - 1) / b + k := Nat.add_mul_div_right _ _ hb
      _ = k := by rw [Nat.div_eq_of_lt (by omega)]; omega
  omega

lemma ceilDiv_pos (a b : Nat) (hb : 0 < b) (ha : 0 < a) : 0 < ceilDiv a b := by
  by_contra hcon
  push_neg at hcon
  have hmul := le_ceilDiv_mul a b hb
  have h0 : ceilDiv a b = 0 := by omega
  rw [h0, Nat.zero_mul] at hmul
  omega

/-! ### The claims -/

/-- C1, counterexample: with `chunk_size = 2`, `overlap = 1` and the 2-word
text `"a b"`, the chunker emits 2 chunks, while the claimed count formula
`⌈max(N - overlap, 1) / (chunk_size - overlap)⌉ = ⌈max(1,1) / 1⌉` gives 1. -/
theorem chunk_count_claimed_formula_false :
    createChunks ⟨2, 1⟩ "a b"
      = some [⟨"a b", ⟨0, 0, 2⟩⟩, ⟨"b", ⟨1, 1, 3⟩⟩] ∧
    (pySplit "a b").length = 2 ∧
    ceilDiv (max ((pySplit "a b").length - 1) 1) (2 - 1) = 1 :=
  ⟨rfl, rfl, rfl⟩

/-- C1 (amended): for every `chunk_size > 0`, `0 ≤ overlap < chunk_size`
and text of `N` whitespace-separated words, the chunker terminates and
produces exactly `⌈N / (chunk_size - overlap)⌉` chunks — which is `0` when
`N = 0` — and the `start_word` values of consecutive chunks differ by
exactly `chunk_size - overlap`. -/
theorem chunk_count_and_stride (cs ov : Nat) (hcs : 0 < cs) (hov : ov < cs)
    (text : String) :
    ∃ l, createChunks ⟨(cs : Int), (ov : Int)⟩ text = some l ∧
      l.length = ceilDiv (pySplit text).length (cs - ov) ∧
      ((pySplit text).length = 0 → l.length = 0) ∧
      ∀ i (h : i + 1 < l.length),
        (l.get ⟨i + 1, h⟩).metadata.start_word
            - (l.get ⟨i, Nat.lt_of_succ_lt h⟩).metadata.start_word
          = (cs : Int) - (ov : Int) := by
  refine ⟨_, createChunksFromWords_eq cs ov hov (pySplit text), ?_, ?_, ?_⟩
  · simp
  · intro h0
    simp [h0, ceilDiv_zero]
  · intro i h
    simp only [List.get_eq_getElem, List.getElem_map, List.getElem_range, mkChunk]
    push_cast [Nat.cast_sub hov.le]
    ring

/-- C1 witness: the amended count and stride at `chunk_size = 2`,
`overlap = 0`, on the 3-word text `"a b c"`. -/
theorem chunk_count_and_stride_witness :
    (0 < 2 ∧ 0 < 2) ∧
    (∃ l, createChunks ⟨((2 : Nat) : Int), ((0 : Nat) : Int)⟩ "a b c" = some l ∧
      l.length = ceilDiv (pySplit "a b c").length (2 - 0) ∧
      ((pySplit "a b c").length = 0 → l.length = 0) ∧
      ∀ i (h : i + 1 < l.length),
        (l.get ⟨i + 1, h⟩).metadata.start_word
            - (l.get ⟨i, Nat.lt_of_succ_lt h⟩).metadata.start_word
          = ((2 : Nat) : Int) - ((0 : Nat) : Int)) :=
  ⟨⟨by decide, by decide⟩,
    chunk_count_and_stride 2 0 (by decide) (by decide) "a b c"⟩

/-- C2, counterexample: with `chunk_size = 2`, `overlap = 1` and the 2-word
text `"a b"`, the last chunk records `end_word = 3`, not the word count 2:
`end_word` is not truncated to `N`. -/
theorem last_end_word_not_truncated :
    (createChunks ⟨2, 1⟩ "a b").map
        (fun l => (l.map (fun c => c.metadata.end_word)).getLastD 0)
      = some 3 ∧
    (pySplit "a b").length = 2 :=
  ⟨rfl, rfl⟩

/-- C2 (amended): for valid parameters and a text with `N > 0` words, the
last chunk's `end_word` is its `start_word + chunk_size`; it is at least
`N` but is not truncated to `N` (it can overshoot).  In particular a
1000-word document with `chunk_size = 500`, `overlap = 50` yields exactly
the `(start_word, end_word)` pairs `(0,500), (450,950), (900,1400)`. -/
theorem last_end_word_overshoots (cs ov : Nat) (hcs : 0 < cs) (hov : ov < cs)
    (text : String) (hN : 0 < (pySplit text).length) :
    (∃ l, createChunks ⟨(cs : Int), (ov : Int)⟩ text = some l ∧
      ∃ hne : l ≠ [],
        (l.getLast hne).metadata.end_word
            = (l.getLast hne).metadata.start_word + (cs : Int) ∧
        ((pySplit text).length : Int) ≤ (l.getLast hne).metadata.end_word) ∧
    (∀ words : List String, words.length = 1000 →
      (createChunksFromWords ⟨((500 : Nat) : Int), ((50 : Nat) : Int)⟩ words).map
          (fun l => l.map (fun c => (c.metadata.start_word, c.metadata.end_word)))
        = some [(0, 500), (450, 950), (900, 1400)]) := by
  constructor
  · have hstep_pos : 0 < cs - ov := by omega
    have hm : 0 < ceilDiv (pySplit text).length (cs - ov) :=
      ceilDiv_pos _ _ hstep_pos hN
    refine ⟨_, createChunksFromWords_eq cs ov hov (pySplit text), ?_, ?_, ?_⟩
    · simp only [ne_eq, List.map_eq_nil_iff, List.range_eq_nil]
      omega
    · rw [List.getLast_eq_getElem]
      simp only [List.length_map, List.length_range, List.getElem_map,
        List.getElem_range, mkChunk]
    · rw [List.getLast_eq_getElem]
      simp only [List.length_map, List.length_range, List.getElem_map,
        List.getElem_range, mkChunk]
      have hcover : (pySplit text).length
          ≤ (ceilDiv (pySplit text).length (cs - ov) - 1) * (cs - ov) + cs := by
        have h1 := le_ceilDiv_mul (pySplit text).length (cs - ov) hstep_pos
        have h2 : ceilDiv (pySplit text).length (cs - ov) * (cs - ov)
            = (ceilDiv (pySplit text).length (cs - ov) - 1) * (cs - ov) + (cs - ov) := by
          have h3 : ceilDiv (pySplit text).length (cs - ov)
              = (ceilDiv (pySplit text).length (cs - ov) - 1) + 1 := by omega
          calc ceilDiv (pySplit text).length (cs - ov) * (cs - ov)
              = ((ceilDiv (pySplit text).length (cs - ov) - 1) + 1) * (cs - ov) := by
                rw [← h3]
            _ = (ceilDiv (pySplit text).length (cs - ov) - 1) * (cs - ov)
                  + (cs - ov) := by ring
        omega
      push_cast
      omega
  · intro words hwords
    rw [createChunksFromWords_eq 500 50 (by omega) words, hwords]
    rw [show ceilDiv 1000 (500 - 50) = 3 from rfl]
    simp [mkChunk, List.range_succ]

/-- C2 witness: the amended statement at `chunk_size = 2`, `overlap = 1`,
on the 2-word text `"a b"`. -/
theorem last_end_word_overshoots_witness :
    (0 < 2 ∧ 1 < 2 ∧ 0 < (pySplit "a b").length) ∧
    ((∃ l, createChunks ⟨((2 : Nat) : Int), ((1 : Nat) : Int)⟩ "a b" = some l ∧
      ∃ hne : l ≠ [],
        (l.getLast hne).metadata.end_word
            = (l.getLast hne).metadata.start_word + ((2 : Nat) : Int) ∧
        ((pySplit "a b").length : Int) ≤ (l.getLast hne).metadata.end_word) ∧
    (∀ words : List String, words.length = 1000 →
      (createChunksFromWords ⟨((500 : Nat) : Int), ((50 : Nat) : Int)⟩ words).map
          (fun l => l.map (fun c => (c.metadata.start_word, c.metadata.end_word)))
        = some [(0, 500), (450, 950), (900, 1400)])) :=
  ⟨⟨by decide, by decide, by decide⟩,
    last_end_word_overshoots 2 1 (by decide) (by decide) "a b" (by decide)⟩

/-- C3 fails on the code: `__init__` stores the parameters without any
validation and `_create_chunks` performs no check, so with
`chunk_overlap = chunk_size = 500` on a one-word text the window start
never advances and the `while` loop never exits — the loop is still
running after any number of iterations (`none` for every fuel bound) and
no configuration error is ever raised, instead of the claimed fail-fast
rejection.  (More generally `createChunksAux_none_of_overlap_ge` shows
this for every `chunk_size ≤ chunk_overlap` and non-exhausted word list.) -/
theorem overlap_eq_chunk_size_never_rejected :
    ∀ fuel : Nat, createChunksAux ⟨500, 500⟩ ["word"] 0 0 fuel = none :=
  fun fuel =>
    createChunksAux_none_of_overlap_ge 500 500 le_rfl ["word"] fuel 0 0 (by decide)

/-- C4: when the retrieved context sequence is empty, `query` returns the
fixed no-information answer with an empty source list, whatever the
generation oracle and question — the generation service is not consulted
on this path (the result does not depend on `gen`). -/
theorem empty_contexts_fixed_answer (gen : String → GenOutcome)
    (question : String) :
    synthesize gen question [] =
      { answer := "I couldn't find any relevant information in the documents to answer your question."
        sources := [] } ∧
    ragQuery (.ok []) gen question =
      { answer := "I couldn't find any relevant information in the documents to answer your question."
        sources := [] } :=
  ⟨rfl, rfl⟩

/-- C7: when the read path raises (store unreachable, search failure),
`_retrieve_context` returns the empty sequence instead of propagating the
error, and `query` then takes the synthesizer's empty-context branch. -/
theorem retrieval_failure_degrades (search : String → Nat → SearchOutcome)
    (question : String) (top_k : Nat) (htop : 0 < top_k) (msg : String)
    (gen : String → GenOutcome)
    (hexc : search question top_k = .exc msg) :
    retrieveContext (search question top_k) = [] ∧
    ragQuery (search question top_k) gen question =
      { answer := "I couldn't find any relevant information in the documents to answer your question."
        sources := [] } := by
  rw [hexc]
  exact ⟨rfl, rfl⟩

/-- C7 witness: a store that always raises, with `top_k = 3`. -/
theorem retrieval_failure_degrades_witness :
    0 < 3 ∧
    ((fun (_ : String) (_ : Nat) => SearchOutcome.exc "connection refused")
        "What is RAG?" 3 = SearchOutcome.exc "connection refused") ∧
    (retrieveContext ((fun (_ : String) (_ : Nat) =>
        SearchOutcome.exc "connection refused") "What is RAG?" 3) = [] ∧
    ragQuery ((fun (_ : String) (_ : Nat) =>
        SearchOutcome.exc "connection refused") "What is RAG?" 3)
        (fun _ => GenOutcome.timeoutExc) "What is RAG?" =
      { answer := "I couldn't find any relevant information in the documents to answer your question."
        sources := [] }) :=
  ⟨by decide, rfl,
    retrieval_failure_degrades
      (fun _ _ => SearchOutcome.exc "connection refused") "What is RAG?" 3
      (by decide) "connection refused" (fun _ => GenOutcome.timeoutExc) rfl⟩

/-- C9: when the store call fails, `get_stats` does not raise: it returns
the statistics record with a zero point count and the engine's configured
vector dimension and collection identifier. -/
theorem stats_default_on_failure (msg : String) :
    getStats (.exc msg) = ⟨0, embeddingDim, collectionName⟩ ∧
    getStats (.exc msg) = ⟨0, 384, "documents"⟩ :=
  ⟨rfl, rfl⟩

/-- C5: for every question, non-empty context sequence and generation
oracle, `query` produces a `QueryResult` whose answer maps each generation
failure to its fixed string: a missing `"response"` field on a 200
response yields the fixed could-not-generate string, a non-200 status the
fixed unavailable string, a timeout the fixed timed-out string, and any
other exception a string embedding the error detail — no generation
failure escapes the query path as an exception. -/
theorem generation_failures_mapped (gen : String → GenOutcome)
    (question : String) (contexts : List RetrievedContext)
    (hne : contexts ≠ []) :
    (synthesize gen question contexts).answer
        = generateAnswer gen question contexts ∧
    (gen (buildPrompt question contexts) = .httpResponse 200 none →
      (synthesize gen question contexts).answer
        = "Sorry, I couldn't generate an answer.") ∧
    (∀ status field, status ≠ 200 →
      gen (buildPrompt question contexts) = .httpResponse status field →
      (synthesize gen question contexts).answer
        = "Sorry, the AI service is currently unavailable.") ∧
    (gen (buildPrompt question contexts) = .timeoutExc →
      (synthesize gen question contexts).answer
        = "Sorry, the request timed out. Please try again.") ∧
    (∀ e, gen (buildPrompt question contexts) = .otherExc e →
      (synthesize gen question contexts).answer
        = "Sorry, an error occurred: " ++ e) := by
  refine ⟨by simp [synthesize, hne], ?_, ?_, ?_, ?_⟩
  · intro hgen
    simp [synthesize, hne, generateAnswer, hgen]
  · intro status field hstatus hgen
    simp [synthesize, hne, generateAnswer, hgen, hstatus]
  · intro hgen
    simp [synthesize, hne, generateAnswer, hgen]
  · intro e hgen
    simp [synthesize, hne, generateAnswer, hgen]

/-- C5 witness: one context and a generation oracle that times out. -/
theorem generation_failures_mapped_witness :
    ([⟨"some passage", "doc.txt", 1/2, 0⟩] : List RetrievedContext) ≠ [] ∧
    ((synthesize (fun _ => GenOutcome.timeoutExc) "q"
          [⟨"some passage", "doc.txt", 1/2, 0⟩]).answer
        = generateAnswer (fun _ => GenOutcome.timeoutExc) "q"
            [⟨"some passage", "doc.txt", 1/2, 0⟩] ∧
    ((fun _ => GenOutcome.timeoutExc) (buildPrompt "q"
          [⟨"some passage", "doc.txt", 1/2, 0⟩]) = .httpResponse 200 none →
      (synthesize (fun _ => GenOutcome.timeoutExc) "q"
          [⟨"some passage", "doc.txt", 1/2, 0⟩]).answer
        = "Sorry, I couldn't generate an answer.") ∧
    (∀ status field, status ≠ 200 →
      (fun _ => GenOutcome.timeoutExc) (buildPrompt "q"
          [⟨"some passage", "doc.txt", 1/2, 0⟩]) = .httpResponse status field →
      (synthesize (fun _ => GenOutcome.timeoutExc) "q"
          [⟨"some passage", "doc.txt", 1/2, 0⟩]).answer
        = "Sorry, the AI service is currently unavailable.") ∧
    ((fun _ => GenOutcome.timeoutExc) (buildPrompt "q"
          [⟨"some passage", "doc.txt", 1/2, 0⟩]) = .timeoutExc →
      (synthesize (fun _ => GenOutcome.timeoutExc) "q"
          [⟨"some passage", "doc.txt", 1/2, 0⟩]).answer
        = "Sorry, the request timed out. Please try again.") ∧
    (∀ e, (fun _ => GenOutcome.timeoutExc) (buildPrompt "q"
          [⟨"some passage", "doc.txt", 1/2, 0⟩]) = .otherExc e →
      (synthesize (fun _ => GenOutcome.timeoutExc) "q"
          [⟨"some passage", "doc.txt", 1/2, 0⟩]).answer
        = "Sorry, an error occurred: " ++ e)) :=
  ⟨by simp,
    generation_failures_mapped (fun _ => GenOutcome.timeoutExc) "q"
      [⟨"some passage", "doc.txt", 1/2, 0⟩] (by simp)⟩

/-- C6: for a non-empty context sequence the source list depends only on
the contexts — it is identical under any two generation oracles, timeout
included — with one entry per context in rank order; each entry carries
the context's source, its score rounded to 3 decimal places, and as
excerpt the full text when its length is at most 200 characters, else the
first 200 characters with the "..." marker appended. -/
theorem sources_from_contexts (gen gen2 : String → GenOutcome)
    (question : String) (contexts : List RetrievedContext)
    (hne : contexts ≠ []) :
    (synthesize gen question contexts).sources
        = (synthesize gen2 question contexts).sources ∧
    (synthesize gen question contexts).sources.length = contexts.length ∧
    ∀ i, i < contexts.length →
      ∃ ctx entry, contexts.get? i = some ctx ∧
        (synthesize gen question contexts).sources.get? i = some entry ∧
        entry.source = ctx.source ∧
        entry.relevance_score = pyRound3 ctx.score ∧
        (ctx.text.length ≤ 200 → entry.excerpt = ctx.text) ∧
        (200 < ctx.text.length →
          entry.excerpt = String.mk (ctx.text.data.take 200) ++ "...") := by
  have hs : (synthesize gen question contexts).sources
      = contexts.map formatSource := by
    simp [synthesize, hne]
  have hs2 : (synthesize gen2 question contexts).sources
      = contexts.map formatSource := by
    simp [synthesize, hne]
  refine ⟨hs.trans hs2.symm, by rw [hs]; simp, ?_⟩
  intro i hi
  refine ⟨contexts.get ⟨i, hi⟩, formatSource (contexts.get ⟨i, hi⟩),
    List.get?_eq_get hi, ?_, rfl, rfl, ?_, ?_⟩
  · rw [hs, List.get?_map, List.get?_eq_get hi]
    rfl
  · intro hlen
    have hnot : ¬ (200 < (contexts.get ⟨i, hi⟩).text.length) := by omega
    simp only [formatSource]
    rw [if_neg hnot]
  · intro hlen
    simp only [formatSource]
    rw [if_pos hlen]

/-- C6 witness: one short context (150 characters would fit whole; here a
short literal) and one 250-character context, under the timeout oracle and
the always-200 oracle. -/
theorem sources_from_contexts_witness :
    ([⟨"short passage", "a.txt", 1/3, 0⟩,
      ⟨String.mk (List.replicate 250 'x'), "b.pdf", 2/3, 1⟩]
        : List RetrievedContext) ≠ [] ∧
    ((synthesize (fun _ => GenOutcome.timeoutExc) "q"
          [⟨"short passage", "a.txt", 1/3, 0⟩,
           ⟨String.mk (List.replicate 250 'x'), "b.pdf", 2/3, 1⟩]).sources
        = (synthesize (fun _ => GenOutcome.httpResponse 200 (some "fine")) "q"
            [⟨"short passage", "a.txt", 1/3, 0⟩,
             ⟨String.mk (List.replicate 250 'x'), "b.pdf", 2/3, 1⟩]).sources ∧
    (synthesize (fun _ => GenOutcome.timeoutExc) "q"
          [⟨"short passage", "a.txt", 1/3, 0⟩,
           ⟨String.mk (List.replicate 250 'x'), "b.pdf", 2/3, 1⟩]).sources.length
        = ([⟨"short passage", "a.txt", 1/3, 0⟩,
            ⟨String.mk (List.replicate 250 'x'), "b.pdf", 2/3, 1⟩]
              : List RetrievedContext).length ∧
    ∀ i, i < ([⟨"short passage", "a.txt", 1/3, 0⟩,
               ⟨String.mk (List.replicate 250 'x'), "b.pdf", 2/3, 1⟩]
                 : List RetrievedContext).length →
      ∃ ctx entry,
        ([⟨"short passage", "a.txt", 1/3, 0⟩,
          ⟨String.mk (List.replicate 250 'x'), "b.pdf", 2/3, 1⟩]
            : List RetrievedContext).get? i = some ctx ∧
        (synthesize (fun _ => GenOutcome.timeoutExc) "q"
            [⟨"short passage", "a.txt", 1/3, 0⟩,
             ⟨String.mk (List.replicate 250 'x'), "b.pdf", 2/3, 1⟩]).sources.get? i
          = some entry ∧
        entry.source = ctx.source ∧
        entry.relevance_score = pyRound3 ctx.score ∧
        (ctx.text.length ≤ 200 → entry.excerpt = ctx.text) ∧
        (200 < ctx.text.length →
          entry.excerpt = String.mk (ctx.text.data.take 200) ++ "...")) :=
  ⟨by simp,
    sources_from_contexts (fun _ => GenOutcome.timeoutExc)
      (fun _ => GenOutcome.httpResponse 200 (some "fine")) "q"
      [⟨"short passage", "a.txt", 1/3, 0⟩,
       ⟨String.mk (List.replicate 250 'x'), "b.pdf", 2/3, 1⟩] (by simp)⟩

/-- C8: `add_documents` builds one point per chunk in loop order for its
single `upsert` call: the i-th point of the batch is built from the i-th
chunk and its payload `chunk_index` is `i`, the chunk's 0-based position;
and whenever the chunk list is `_create_chunks` output under valid
parameters, the chunker-assigned `chunk_id` of the i-th chunk is also `i`,
so the stored `chunk_index` matches the emission order. -/
theorem chunk_index_matches_emission (embed : String → List ℚ)
    (genId : Nat → String) (chunks : List Chunk) (source : String) :
    (addDocuments embed genId chunks source).length = chunks.length ∧
    (∀ i, i < chunks.length →
      ∃ chunk point, chunks.get? i = some chunk ∧
        (addDocuments embed genId chunks source).get? i = some point ∧
        point.payload_chunk_index = i ∧
        point.payload_text = chunk.text ∧
        point.payload_source = source ∧
        point.payload_metadata = chunk.metadata) ∧
    (∀ cs ov : Nat, ov < cs → ∀ text : String,
      createChunks ⟨(cs : Int), (ov : Int)⟩ text = some chunks →
      ∀ i, i < chunks.length →
        ∀ chunk, chunks.get? i = some chunk → chunk.metadata.chunk_id = i) := by
  refine ⟨by simp [addDocuments], ?_, ?_⟩
  · intro i hi
    have hpt : (addDocuments embed genId chunks source).get? i
        = some { id := genId i, vector := embed (chunks.get ⟨i, hi⟩).text,
                 payload_text := (chunks.get ⟨i, hi⟩).text,
                 payload_source := source, payload_chunk_index := i,
                 payload_metadata := (chunks.get ⟨i, hi⟩).metadata } := by
      unfold addDocuments
      rw [List.get?_map, List.get?_enum, List.get?_eq_get hi]
      rfl
    exact ⟨chunks.get ⟨i, hi⟩, _, List.get?_eq_get hi, hpt, rfl, rfl, rfl, rfl⟩
  · intro cs ov hov text hcreate i hi chunk hchunk
    have hform := createChunksFromWords_eq cs ov hov (pySplit text)
    rw [show createChunks ⟨(cs : Int), (ov : Int)⟩ text
        = createChunksFromWords ⟨(cs : Int), (ov : Int)⟩ (pySplit text) from rfl,
      hform, Option.some.injEq] at hcreate
    rw [← hcreate] at hchunk hi
    rw [List.length_map, List.length_range] at hi
    rw [List.get?_map, List.get?_eq_get (by simpa using hi)] at hchunk
    rw [Option.map_some', Option.some.injEq] at hchunk
    rw [← hchunk]
    simp [mkChunk]

/-- C8 witness: two chunks (the `_create_chunks` output on `"a b"` with
`chunk_size = 2`, `overlap = 1`), a constant embedder and id stream. -/
theorem chunk_index_matches_emission_witness :
    ((addDocuments (fun _ => [1]) (fun _ => "uuid")
        [⟨"a b", ⟨0, 0, 2⟩⟩, ⟨"b", ⟨1, 1, 3⟩⟩] "foo.txt").length
      = ([⟨"a b", ⟨0, 0, 2⟩⟩, ⟨"b", ⟨1, 1, 3⟩⟩] : List Chunk).length ∧
    (∀ i, i < ([⟨"a b", ⟨0, 0, 2⟩⟩, ⟨"b", ⟨1, 1, 3⟩⟩] : List Chunk).length →
      ∃ chunk point,
        ([⟨"a b", ⟨0, 0, 2⟩⟩, ⟨"b", ⟨1, 1, 3⟩⟩] : List Chunk).get? i = some chunk ∧
        (addDocuments (fun _ => [1]) (fun _ => "uuid")
            [⟨"a b", ⟨0, 0, 2⟩⟩, ⟨"b", ⟨1, 1, 3⟩⟩] "foo.txt").get? i = some point ∧
        point.payload_chunk_index = i ∧
        point.payload_text = chunk.text ∧
        point.payload_source = "foo.txt" ∧
        point.payload_metadata = chunk.metadata) ∧
    (∀ cs ov : Nat, ov < cs → ∀ text : String,
      createChunks ⟨(cs : Int), (ov : Int)⟩ text
          = some [⟨"a b", ⟨0, 0, 2⟩⟩, ⟨"b", ⟨1, 1, 3⟩⟩] →
      ∀ i, i < ([⟨"a b", ⟨0, 0, 2⟩⟩, ⟨"b", ⟨1, 1, 3⟩⟩] : List Chunk).length →
        ∀ chunk,
          ([⟨"a b", ⟨0, 0, 2⟩⟩, ⟨"b", ⟨1, 1, 3⟩⟩] : List Chunk).get? i = some chunk →
          chunk.metadata.chunk_id = i)) :=
  chunk_index_matches_emission (fun _ => [1]) (fun _ => "uuid")
    [⟨"a b", ⟨0, 0, 2⟩⟩, ⟨"b", ⟨1, 1, 3⟩⟩] "foo.txt"

/-- C10: for valid parameters and a text with at least one word, every
chunk the chunker emits is non-empty: its `start_word` is a word index
strictly below `N`, its text is the space-join of the word slice
`words[start_word : start_word + chunk_size]`, and that text splits back
into that slice — between 1 and `chunk_size` words. -/
theorem chunks_nonempty (cs ov : Nat) (hcs : 0 < cs) (hov : ov < cs)
    (text : String) (hN : 0 < (pySplit text).length) :
    ∃ l, createChunks ⟨(cs : Int), (ov : Int)⟩ text = some l ∧
      ∀ c ∈ l, ∃ s : Nat,
        c.metadata.start_word = (s : Int) ∧
        s < (pySplit text).length ∧
        c.text = pyJoin " " (((pySplit text).drop s).take cs) ∧
        pySplit c.text = ((pySplit text).drop s).take cs ∧
        1 ≤ (((pySplit text).drop s).take cs).length ∧
        (((pySplit text).drop s).take cs).length ≤ cs := by
  refine ⟨_, createChunksFromWords_eq cs ov hov (pySplit text), ?_⟩
  intro c hc
  rw [List.mem_map] at hc
  obtain ⟨k, hk, hck⟩ := hc
  rw [List.mem_range] at hk
  have hlt : k * (cs - ov) < (pySplit text).length :=
    mul_lt_of_lt_ceilDiv (pySplit text).length (cs - ov) k (by omega) hk
  subst hck
  refine ⟨k * (cs - ov), rfl, hlt, rfl, ?_, ?_, ?_⟩
  · show pySplit (pyJoin " " (((pySplit text).drop (k * (cs - ov))).take cs)) = _
    refine pySplit_pyJoin _ ?_
    intro w hw
    exact pySplit_words text w (List.drop_subset _ _ (List.take_subset _ _ hw))
  · have hlen : (((pySplit text).drop (k * (cs - ov))).take cs).length
        = min cs ((pySplit text).length - k * (cs - ov)) := by
      simp
    omega
  · have hlen : (((pySplit text).drop (k * (cs - ov))).take cs).length
        = min cs ((pySplit text).length - k * (cs - ov)) := by
      simp
    omega

/-- C10 witness: `chunk_size = 2`, `overlap = 1`, on the 2-word text
`"a b"`. -/
theorem chunks_nonempty_witness :
    (0 < 2 ∧ 1 < 2 ∧ 0 < (pySplit "a b").length) ∧
    (∃ l, createChunks ⟨((2 : Nat) : Int), ((1 : Nat) : Int)⟩ "a b" = some l ∧
      ∀ c ∈ l, ∃ s : Nat,
        c.metadata.start_word = (s : Int) ∧
        s < (pySplit "a b").length ∧
        c.text = pyJoin " " (((pySplit "a b").drop s).take 2) ∧
        pySplit c.text = ((pySplit "a b").drop s).take 2 ∧
        1 ≤ (((pySplit "a b").drop s).take 2).length ∧
        (((pySplit "a b").drop s).take 2).length ≤ 2) :=
  ⟨⟨by decide, by decide, by decide⟩,
    chunks_nonempty 2 1 (by decide) (by decide) "a b" (by decide)⟩

end AIDocHelper
